import Mathlib

/-!
# Verification of the `GitPython` repository adapter (`pydriller/git_gp.py`)

Shallow embedding of the adapter class `GitPython`.  The underlying
version-control toolkit (GitPython's `Repo`/`Git` handles) is modelled as
explicit state: a list of branch names, an optional active branch, a tag
table, and oracles for the raw command output (`git log`, `git blame`).
Logging is modelled by returning the list of emitted log entries.
-/

namespace GitGP

/-- Log levels used by the module logger (`logger.debug` / `logger.info`). -/
inductive LogLevel
  | debug
  | info
deriving DecidableEq, Repr

/-- One emitted log record: a level and the (formatted) message. -/
structure LogEntry where
  level : LogLevel
  msg : String
deriving DecidableEq, Repr

/-- A raw GitPython commit object, identified by its hash (`hexsha`). -/
structure GitCommit where
  hexsha : String
deriving DecidableEq, Repr

/-- The shared configuration object (`Conf`); only the `main_branch`
option is relevant to this module.  `none` models an unset option. -/
structure Conf where
  main_branch : Option String
deriving DecidableEq, Repr

/-- The PyDriller domain `Commit`: a raw commit plus a reference to the
shared configuration (`Commit(commit, self._conf)`). -/
structure Commit where
  gitCommit : GitCommit
  conf : Conf
deriving DecidableEq, Repr

/-- A GitPython tag object: its name and, when resolvable, its target
commit.  `commit = none` models a tag whose `.commit` access raises
`AttributeError` (e.g. a dangling annotated tag). -/
structure Tag where
  name : String
  commit : Option GitCommit
deriving DecidableEq, Repr

/-- Python `str.split(sep)` with a one-character separator, on the
character list of the string.  `"".split(sep) == ['']`, and a trailing
separator yields a trailing empty field. -/
def pySplitChar (sep : Char) : List Char → List (List Char)
  | [] => [[]]
  | c :: rest =>
    match pySplitChar sep rest with
    | [] => [[]]
    | h :: t => if c = sep then [] :: h :: t else (c :: h) :: t

/-- Python `s.split(sep)` for a `String` and a one-character separator
(the module only uses `.split('\n')`). -/
def pySplit (s : String) (sep : Char) : List String :=
  (pySplitChar sep s.data).map List.asString

/-- Python tuple `<` (lexicographic, shorter tuple is smaller on a
common prefix), used for `self.git.version_info >= (2, 23)`. -/
def pyTupleLT : List Nat → List Nat → Bool
  | [], [] => false
  | [], _ :: _ => true
  | _ :: _, [] => false
  | a :: as_, b :: bs => if a < b then true else if a = b then pyTupleLT as_ bs else false

/-- Python tuple `>=`, i.e. not `<`. -/
def pyTupleGE (a b : List Nat) : Bool := !(pyTupleLT a b)

/-! ## Commit enumeration (`get_list_commits`, `total_commits`) -/

/-- `Repo.iter_commits`: the underlying traversal.  The repository's
commits are given in the toolkit's native newest-first order; passing
`reverse=True` yields them oldest-first (reversed). -/
def iter_commits (commits : List GitCommit) (reverse : Bool) : List GitCommit :=
  if reverse then commits.reverse else commits

/-- `get_commit_from_gitpython`: wrap a raw commit with the shared
configuration. -/
def get_commit_from_gitpython (conf : Conf) (commit : GitCommit) : Commit :=
  Commit.mk commit conf

/-- The kwargs handling of `get_list_commits`: if the caller passed no
`reverse` option (`none`), `kwargs['reverse'] = True`; otherwise the
caller's value is kept unchanged. -/
def effectiveReverse : Option Bool → Bool
  | none => true
  | some b => b

/-- `get_list_commits`: drained generator of wrapped commits produced by
`iter_commits` with the effective `reverse` value.  `reverseKw` is the
caller's `reverse` kwarg (`none` when absent). -/
def get_list_commits (conf : Conf) (commits : List GitCommit)
    (reverseKw : Option Bool) : List Commit :=
  (iter_commits commits (effectiveReverse reverseKw)).map (get_commit_from_gitpython conf)

/-- `total_commits`: `len(list(self.get_list_commits()))` — full
enumeration of the default traversal, no toolkit metadata shortcut. -/
def total_commits (conf : Conf) (commits : List GitCommit) : Nat :=
  (get_list_commits conf commits none).length

/-! ## Working-tree state (`checkout`, `reset`, `_delete_tmp_branch`) -/

/-- The part of the underlying repository state that `checkout` / `reset`
mutate: the branches (name and tip commit hash), the active branch
(`none` models a detached HEAD) and the commit the working tree is
checked out at.  File contents are outside the model. -/
structure RepoState where
  branches : List (String × String)
  activeBranch : Option String
  headHash : String
deriving DecidableEq, Repr

/-- Exceptions that escape `_delete_tmp_branch` / `checkout` / `reset`:
the `TypeError` raised by `repo.active_branch` on a detached HEAD (not
caught by the `except GitCommandError` clause), and `GitCommandError`
from an uncaught toolkit invocation. -/
inductive PyExn
  | typeError
  | gitCommandError
deriving DecidableEq, Repr

/-- `git checkout -f <name>` for an existing branch name: fails
(`GitCommandError`, modelled as `Except.error ()`) when no such branch
exists, otherwise makes it the active branch and moves the working tree
to its tip. -/
def gitCheckoutBranch (s : RepoState) (name : String) : Except Unit RepoState :=
  match s.branches.find? (fun b => b.1 = name) with
  | some b => Except.ok { s with activeBranch := some name, headHash := b.2 }
  | none => Except.error ()

/-- `repo.delete_head(name, force=True)`: fails when the branch does not
exist or is the currently checked-out branch; otherwise removes it. -/
def deleteHead (s : RepoState) (name : String) : Except Unit RepoState :=
  match s.branches.find? (fun b => b.1 = name) with
  | some _ =>
    if s.activeBranch = some name then Except.error ()
    else Except.ok
      { s with branches := s.branches.filter (fun b => !decide (b.1 = name)) }
  | none => Except.error ()

/-- `git checkout -f <hash> -b <name>`: creates branch `name` at the
(assumed resolvable) target commit and makes it active; fails when a
branch called `name` already exists. -/
def gitCheckoutNewBranch (s : RepoState) (hash : String) (name : String) :
    Except Unit RepoState :=
  match s.branches.find? (fun b => b.1 = name) with
  | some _ => Except.error ()
  | none =>
    Except.ok { branches := (name, hash) :: s.branches,
                activeBranch := some name, headHash := hash }

/-- `_delete_tmp_branch`: inside a `try`, read `repo.active_branch.name`
— on a detached HEAD this raises `TypeError`, which the
`except GitCommandError` clause does not catch, so it propagates.  If
the active branch is `_PD`, first check out the configured main branch,
then delete `_PD`; a `GitCommandError` anywhere is caught and logged at
debug level, keeping whatever state was reached before the failure. -/
def delete_tmp_branch (main : String) (s : RepoState) :
    Except PyExn (RepoState × List LogEntry) :=
  match s.activeBranch with
  | none => Except.error PyExn.typeError
  | some b =>
    if b = "_PD" then
      match gitCheckoutBranch s main with
      | Except.error _ =>
        Except.ok (s, [LogEntry.mk LogLevel.debug "Branch _PD not found"])
      | Except.ok s1 =>
        match deleteHead s1 "_PD" with
        | Except.ok s2 => Except.ok (s2, [])
        | Except.error _ =>
          Except.ok (s1, [LogEntry.mk LogLevel.debug "Branch _PD not found"])
    else
      match deleteHead s "_PD" with
      | Except.ok s2 => Except.ok (s2, [])
      | Except.error _ =>
        Except.ok (s, [LogEntry.mk LogLevel.debug "Branch _PD not found"])

/-- `checkout(_hash)`: delete the scratch branch (an escaping exception
propagates), then `git checkout -f <hash> -b '_PD'` (whose
`GitCommandError` also propagates). -/
def checkout (main : String) (s : RepoState) (hash : String) :
    Except PyExn (RepoState × List LogEntry) :=
  match delete_tmp_branch main s with
  | Except.error e => Except.error e
  | Except.ok r =>
    match gitCheckoutNewBranch r.1 hash "_PD" with
    | Except.ok s2 => Except.ok (s2, r.2)
    | Except.error _ => Except.error PyExn.gitCommandError

/-- `reset()`: `git checkout -f <main_branch>` (failure propagates),
then `_delete_tmp_branch()` (whose escaping exception propagates). -/
def reset (main : String) (s : RepoState) :
    Except PyExn (RepoState × List LogEntry) :=
  match gitCheckoutBranch s main with
  | Except.error _ => Except.error PyExn.gitCommandError
  | Except.ok s1 =>
    match delete_tmp_branch main s1 with
    | Except.error e => Except.error e
    | Except.ok r => Except.ok (r.1, r.2)

/-! ## Lazy repository opening (`_open_repository`, `_discover_main_branch`,
`get_head`) -/

/-- The adapter state relevant to lazy opening: whether `self._repo` has
been created, the shared configuration, and the repository's persistent
`blame.markUnblamableLines` config value written at open time. -/
structure AdapterState where
  repoOpened : Bool
  conf : Conf
  blameMarkUnblamable : Bool
deriving DecidableEq, Repr

/-- `_discover_main_branch`: record the active branch name in the
configuration; a detached HEAD (`active = none`, a `TypeError` in the
source) records the empty string and logs an informational note. -/
def discover_main_branch (conf : Conf) (active : Option String) :
    Conf × List LogEntry :=
  match active with
  | some name => ({ conf with main_branch := some name }, [])
  | none =>
    ({ conf with main_branch := some "" },
     [LogEntry.mk LogLevel.info
        "HEAD is a detached symbolic reference, setting main branch to empty string"])

/-- `_open_repository`: open the `Repo` handle, write the
`blame.markUnblamableLines` repository option, and invoke branch
discovery only when the configuration has no `main_branch` yet.  The
returned `Bool` records whether discovery was invoked. -/
def open_repository (st : AdapterState) (active : Option String) :
    AdapterState × List LogEntry × Bool :=
  let st1 : AdapterState :=
    { st with repoOpened := true, blameMarkUnblamable := true }
  match st1.conf.main_branch with
  | none =>
    let r := discover_main_branch st1.conf active
    ({ st1 with conf := r.1 }, r.2, true)
  | some _ => (st1, [], false)

/-- The `repo` property: return the handle, opening it first when it has
not been opened yet. -/
def repo_property (st : AdapterState) (active : Option String) :
    AdapterState × List LogEntry × Bool :=
  if st.repoOpened then (st, [], false) else open_repository st active

/-- `get_head`: `self.repo.head.commit` wrapped with the shared
configuration.  Accessing `self.repo` triggers the lazy open on first
use, so the (possibly updated) adapter state is returned alongside. -/
def get_head (st : AdapterState) (active : Option String) (head : GitCommit) :
    Commit × AdapterState × List LogEntry :=
  let r := repo_property st active
  (Commit.mk head r.1.conf, r.1, r.2.1)

/-! ## Tag resolution (`get_commit_from_tag`) -/

/-- The exceptions caught and re-raised by `get_commit_from_tag`. -/
inductive TagError
  | indexError
  | attributeError
deriving DecidableEq, Repr

/-- `repo.commit(commit_id)`: resolve a full hash to its commit. -/
def repoCommit (commit_id : String) : GitCommit :=
  GitCommit.mk commit_id

/-- `get_commit`: `Commit(self.repo.commit(commit_id), self._conf)`. -/
def get_commit (conf : Conf) (commit_id : String) : Commit :=
  Commit.mk (repoCommit commit_id) conf

/-- `get_commit_from_tag`: look the tag up in `repo.tags` (an absent
name raises `IndexError`, an unresolvable target raises
`AttributeError`); both are logged at debug level and re-raised. -/
def get_commit_from_tag (conf : Conf) (tags : List Tag) (tag : String) :
    Except TagError Commit × List LogEntry :=
  match tags.find? (fun t => t.name = tag) with
  | none =>
    (Except.error TagError.indexError,
     [LogEntry.mk LogLevel.debug ("Tag " ++ tag ++ " not found")])
  | some t =>
    match t.commit with
    | none =>
      (Except.error TagError.attributeError,
       [LogEntry.mk LogLevel.debug ("Tag " ++ tag ++ " not found")])
    | some c => (Except.ok (get_commit conf c.hexsha), [])

/-! ## File history (`get_commits_modified_file`) and blame (`_get_blame`) -/

/-- `get_commits_modified_file`: run
`git log --follow --format=%H <path>` (the oracle `gitLog`, applied to
the `str(Path(filepath))` normalisation `pathOf filepath`); on success
split the raw output on newlines, on `GitCommandError` keep the initial
empty list and log at debug level. -/
def get_commits_modified_file (gitLog : String → Except Unit String)
    (pathOf : String → String) (filepath : String) :
    List String × List LogEntry :=
  let path := pathOf filepath
  match gitLog path with
  | Except.ok out => (pySplit out '\n', [])
  | Except.error _ =>
    ([], [LogEntry.mk LogLevel.debug ("Could not find information of file " ++ path)])

/-- `_get_blame`: build the argument list `['-w', commit_hash + '^']`,
append `--ignore-revs-file <p>` only when an ignore file is supplied and
`git.version_info >= (2, 23)` (otherwise log an informational note),
then run `git blame *args -- path` (the oracle `blame`) and split its
output on newlines.  The arguments actually passed are returned so the
invocation can be observed. -/
def get_blame (versionInfo : List Nat) (blame : List String → String → String)
    (commit_hash : String) (path : String) (hashes_to_ignore_path : Option String) :
    List String × List String × List LogEntry :=
  let args0 : List String := ["-w", commit_hash ++ "^"]
  let r : List String × List LogEntry :=
    match hashes_to_ignore_path with
    | none => (args0, [])
    | some p =>
      if pyTupleGE versionInfo [2, 23] then
        (args0 ++ ["--ignore-revs-file", p], [])
      else
        (args0,
         [LogEntry.mk LogLevel.info
            "'--ignore-revs-file' is only available from git v2.23"])
  (pySplit (blame r.1 path) '\n', r.1, r.2)

/-! ## Helper lemmas -/

/-- Python `str.split` never returns an empty list of fields. -/
theorem pySplitChar_ne_nil (sep : Char) : ∀ l : List Char, pySplitChar sep l ≠ []
  | [] => by simp [pySplitChar]
  | c :: rest => by
    simp only [pySplitChar]
    cases h : pySplitChar sep rest with
    | nil => simp
    | cons hd tl =>
      by_cases hc : c = sep <;> simp [hc]

/-- `pySplit` never returns the empty list. -/
theorem pySplit_ne_nil (s : String) (sep : Char) : pySplit s sep ≠ [] := by
  intro h
  exact pySplitChar_ne_nil sep s.data (List.map_eq_nil_iff.mp h)

/-- Splitting the empty string yields a single empty field (Python
`"".split('\n') == ['']`). -/
theorem pySplit_empty (sep : Char) : pySplit "" sep = [""] := rfl

/-- A list none of whose elements satisfy `p` (no `find?` hit) has
`countP p` zero. -/
theorem countP_eq_zero_of_find?_none {α : Type} {p : α → Bool} {l : List α}
    (h : l.find? p = none) : l.countP p = 0 := by
  rw [List.countP_eq_zero]
  intro a ha
  exact List.find?_eq_none.mp h a ha

/-- No branch named `name` survives filtering the `name` entries out. -/
theorem find?_filter_self (l : List (String × String)) (name : String) :
    (l.filter (fun b => !decide (b.1 = name))).find? (fun b => b.1 = name) =
      none := by
  rw [List.find?_eq_none]
  intro x hx
  have := (List.mem_filter.mp hx).2
  simpa using this

/-- Looking up a branch other than `_PD` is unchanged by deleting all
`_PD` entries. -/
theorem find?_other_filter (l : List (String × String)) (name : String)
    (hn : name ≠ "_PD") :
    (l.filter (fun x => !decide (x.1 = "_PD"))).find? (fun x => x.1 = name) =
      l.find? (fun x => x.1 = name) := by
  induction l with
  | nil => rfl
  | cons a t ih =>
    by_cases hpd : a.1 = "_PD"
    · have hna : ¬ a.1 = name := fun h => hn (by rw [← h, hpd])
      rw [List.filter_cons_of_neg (by simp [hpd]),
        List.find?_cons_of_neg _ (by simp [hna]), ih]
    · by_cases hnm : a.1 = name
      · rw [List.filter_cons_of_pos (by simp [hpd]),
          List.find?_cons_of_pos _ (by simp [hnm]),
          List.find?_cons_of_pos _ (by simp [hnm])]
      · rw [List.filter_cons_of_pos (by simp [hpd]),
          List.find?_cons_of_neg _ (by simp [hnm]),
          List.find?_cons_of_neg _ (by simp [hnm]), ih]

/-- On a detached HEAD, `repo.active_branch` raises `TypeError`, which
`_delete_tmp_branch` does not catch. -/
theorem delete_tmp_branch_detached (main : String) (s : RepoState)
    (hb : s.activeBranch = none) :
    delete_tmp_branch main s = Except.error PyExn.typeError := by
  simp [delete_tmp_branch, hb]

/-- On a non-scratch branch with no `_PD` branch present, the failed
deletion is caught and logged at debug level, the state unchanged. -/
theorem delete_tmp_branch_absent (main : String) (s : RepoState) (b : String)
    (hb : s.activeBranch = some b) (hbne : b ≠ "_PD")
    (hnone : s.branches.find? (fun x => x.1 = "_PD") = none) :
    delete_tmp_branch main s =
      Except.ok (s, [LogEntry.mk LogLevel.debug "Branch _PD not found"]) := by
  simp [delete_tmp_branch, deleteHead, hb, hbne, hnone]

/-- On a non-scratch branch with a `_PD` branch present,
`_delete_tmp_branch` deletes it and changes nothing else. -/
theorem delete_tmp_branch_removes (main : String) (s : RepoState) (b : String)
    (hb : s.activeBranch = some b) (hbne : b ≠ "_PD") (bd : String × String)
    (hfd : s.branches.find? (fun x => x.1 = "_PD") = some bd) :
    delete_tmp_branch main s =
      Except.ok (RepoState.mk (s.branches.filter (fun x => !decide (x.1 = "_PD")))
        s.activeBranch s.headHash, []) := by
  simp [delete_tmp_branch, deleteHead, hb, hbne, hfd]

/-- On the scratch branch itself, `_delete_tmp_branch` first checks out
the configured main branch and then deletes `_PD`. -/
theorem delete_tmp_branch_on_scratch (main : String) (s : RepoState)
    (hb : s.activeBranch = some "_PD") (bm : String × String)
    (hfm : s.branches.find? (fun x => x.1 = main) = some bm)
    (hne : main ≠ "_PD") (bd : String × String)
    (hfd : s.branches.find? (fun x => x.1 = "_PD") = some bd) :
    delete_tmp_branch main s =
      Except.ok (RepoState.mk (s.branches.filter (fun x => !decide (x.1 = "_PD")))
        (some main) bm.2, []) := by
  simp [delete_tmp_branch, gitCheckoutBranch, deleteHead, hb, hfm, hfd, hne]

end GitGP

/-- C1: `get_list_commits` without a caller-supplied `reverse` option
invokes the traversal with `reverse=True`, yielding the commits
oldest-first (the reverse of the toolkit's native newest-first order);
with a caller-supplied `reverse` option the caller's value is used
unchanged. -/
theorem get_list_commits_reverse_default (conf : GitGP.Conf)
    (commits : List GitGP.GitCommit) (reverseKw : Option Bool) :
    (reverseKw = none →
      GitGP.effectiveReverse reverseKw = true ∧
      GitGP.get_list_commits conf commits reverseKw =
        commits.reverse.map (GitGP.get_commit_from_gitpython conf)) ∧
    (∀ b : Bool, reverseKw = some b →
      GitGP.effectiveReverse reverseKw = b ∧
      GitGP.get_list_commits conf commits reverseKw =
        (GitGP.iter_commits commits b).map (GitGP.get_commit_from_gitpython conf)) := by
  constructor
  · rintro rfl
    exact ⟨rfl, by simp [GitGP.get_list_commits, GitGP.iter_commits, GitGP.effectiveReverse]⟩
  · rintro b rfl
    exact ⟨rfl, rfl⟩

/-- Witness for C1 at a concrete two-commit repository. -/
theorem get_list_commits_reverse_default_witness :
    (GitGP.get_list_commits ⟨some "main"⟩ [⟨"n"⟩, ⟨"o"⟩] none =
      [GitGP.GitCommit.mk "n", GitGP.GitCommit.mk "o"].reverse.map
        (GitGP.get_commit_from_gitpython ⟨some "main"⟩)) ∧
    (GitGP.effectiveReverse (some false) = false) :=
  ⟨((get_list_commits_reverse_default ⟨some "main"⟩ [⟨"n"⟩, ⟨"o"⟩] none).1 rfl).2,
   ((get_list_commits_reverse_default ⟨some "main"⟩ [⟨"n"⟩, ⟨"o"⟩] (some false)).2 false rfl).1⟩

/-- C7: `total_commits` equals the length of the fully drained default
`get_list_commits` traversal; being that full enumeration, it equals
the repository's commit count. -/
theorem total_commits_drains_traversal (conf : GitGP.Conf)
    (commits : List GitGP.GitCommit) :
    GitGP.total_commits conf commits = (GitGP.get_list_commits conf commits none).length ∧
    GitGP.total_commits conf commits = commits.length := by
  refine ⟨rfl, ?_⟩
  simp [GitGP.total_commits, GitGP.get_list_commits, GitGP.iter_commits,
    GitGP.effectiveReverse]

/-- C5: when the underlying `git log --follow` query raises a command
error, `get_commits_modified_file` returns the empty list and emits a
debug log entry; it is a total function, so it never raises. -/
theorem get_commits_modified_file_soft_fail (gitLog : String → Except Unit String)
    (pathOf : String → String) (filepath : String)
    (h : gitLog (pathOf filepath) = Except.error ()) :
    GitGP.get_commits_modified_file gitLog pathOf filepath =
      ([], [GitGP.LogEntry.mk GitGP.LogLevel.debug
              ("Could not find information of file " ++ pathOf filepath)]) := by
  simp [GitGP.get_commits_modified_file, h]

/-- Witness for C5: a query that always fails yields the empty list. -/
theorem get_commits_modified_file_soft_fail_witness :
    GitGP.get_commits_modified_file (fun _ => Except.error ()) id "never/existed.txt" =
      ([], [GitGP.LogEntry.mk GitGP.LogLevel.debug
              ("Could not find information of file " ++ "never/existed.txt")]) :=
  get_commits_modified_file_soft_fail (fun _ => Except.error ()) id "never/existed.txt" rfl

/-- C10: when the underlying query succeeds, the result is the
newline-split of the raw output, hence never the empty list; in
particular empty raw output yields the one-element list `[""]`. -/
theorem get_commits_modified_file_success_split (gitLog : String → Except Unit String)
    (pathOf : String → String) (filepath : String) (out : String)
    (h : gitLog (pathOf filepath) = Except.ok out) :
    (GitGP.get_commits_modified_file gitLog pathOf filepath).1 = GitGP.pySplit out '\n' ∧
    (GitGP.get_commits_modified_file gitLog pathOf filepath).1 ≠ [] ∧
    (out = "" → (GitGP.get_commits_modified_file gitLog pathOf filepath).1 = [""]) := by
  refine ⟨?_, ?_, ?_⟩
  · simp [GitGP.get_commits_modified_file, h]
  · simp [GitGP.get_commits_modified_file, h]
    exact GitGP.pySplit_ne_nil out '\n'
  · rintro rfl
    simp [GitGP.get_commits_modified_file, h, GitGP.pySplit_empty]

/-- Witness for C10: a successful query with empty output yields
`[""]`, not `[]`. -/
theorem get_commits_modified_file_success_split_witness :
    (GitGP.get_commits_modified_file (fun _ => Except.ok "") id "a.txt").1 = [""] :=
  (get_commits_modified_file_success_split (fun _ => Except.ok "") id "a.txt" ""
      rfl).2.2 rfl

/-- C2: from a state on a branch, `checkout` deletes the scratch branch
`_PD` (switching back to the main branch first when `_PD` is the active
branch) before the forced checkout creates a fresh `_PD`: no `_PD`
branch survives the deletion step, and afterwards exactly one branch
with the reserved name exists, active and at the target commit.  From a
detached HEAD the call instead raises the `TypeError` of
`repo.active_branch` — uncaught by the `except GitCommandError` clause —
and changes nothing. -/
theorem checkout_single_scratch_branch (main hash : String) (s : GitGP.RepoState)
    (hmain : (s.branches.find? (fun x => x.1 = main)).isSome)
    (hne : main ≠ "_PD")
    (hact : s.activeBranch = some "_PD" →
      (s.branches.find? (fun x => x.1 = "_PD")).isSome) :
    (s.activeBranch = none →
      GitGP.checkout main s hash = Except.error GitGP.PyExn.typeError) ∧
    (s.activeBranch ≠ none →
      (GitGP.delete_tmp_branch main s).toOption.map
          (fun r => r.1.branches.countP (fun x => x.1 = "_PD")) = some 0 ∧
      (s.activeBranch = some "_PD" →
        (GitGP.gitCheckoutBranch s main).toOption.map
          (fun t => t.activeBranch) = some (some main)) ∧
      (GitGP.checkout main s hash).toOption.map
          (fun r => (r.1.branches.countP (fun x => x.1 = "_PD"),
                     r.1.activeBranch, r.1.headHash)) =
        some (1, some "_PD", hash)) := by
  constructor
  · intro hb
    simp [GitGP.checkout, GitGP.delete_tmp_branch_detached main s hb]
  · intro hb
    obtain ⟨b, hbs⟩ := Option.ne_none_iff_exists'.mp hb
    have hcf : (s.branches.filter (fun x => !decide (x.1 = "_PD"))).countP
        (fun x => x.1 = "_PD") = 0 :=
      GitGP.countP_eq_zero_of_find?_none (GitGP.find?_filter_self s.branches "_PD")
    have hcons : ∀ l : List (String × String), l.countP (fun x => x.1 = "_PD") = 0 →
        ((("_PD", hash) :: l).countP (fun x => x.1 = "_PD"),
         (some "_PD" : Option String), hash) =
        ((1 : Nat), (some "_PD" : Option String), hash) := by
      intro l hl
      rw [List.countP_cons, hl]
      simp
    by_cases hbpd : b = "_PD"
    · subst hbpd
      obtain ⟨bm, hfm⟩ := Option.isSome_iff_exists.mp hmain
      obtain ⟨bd, hfd⟩ := Option.isSome_iff_exists.mp (hact hbs)
      have hdel := GitGP.delete_tmp_branch_on_scratch main s hbs bm hfm hne bd hfd
      have hnew : GitGP.gitCheckoutNewBranch
          (GitGP.RepoState.mk (s.branches.filter (fun x => !decide (x.1 = "_PD")))
            (some main) bm.2) hash "_PD" =
          Except.ok (GitGP.RepoState.mk
            (("_PD", hash) :: s.branches.filter (fun x => !decide (x.1 = "_PD")))
            (some "_PD") hash) := by
        unfold GitGP.gitCheckoutNewBranch
        rw [show (GitGP.RepoState.mk
            (s.branches.filter (fun x => !decide (x.1 = "_PD")))
            (some main) bm.2).branches.find? (fun x => x.1 = "_PD") = none from
          GitGP.find?_filter_self s.branches "_PD"]
      have hck : GitGP.checkout main s hash = Except.ok
          (GitGP.RepoState.mk
            (("_PD", hash) :: s.branches.filter (fun x => !decide (x.1 = "_PD")))
            (some "_PD") hash, []) := by
        simp only [GitGP.checkout, hdel, hnew]
      refine ⟨?_, ?_, ?_⟩
      · rw [hdel]
        exact congrArg some hcf
      · intro _
        rw [show GitGP.gitCheckoutBranch s main = Except.ok
            (GitGP.RepoState.mk s.branches (some main) bm.2) from by
          simp [GitGP.gitCheckoutBranch, hfm]]
        rfl
      · rw [hck]
        exact congrArg some (hcons _ hcf)
    · have hnotpd : ¬ s.activeBranch = some "_PD" := by
        rw [hbs]; simpa using hbpd
      cases hfd : s.branches.find? (fun x => x.1 = "_PD") with
      | none =>
        have hdel := GitGP.delete_tmp_branch_absent main s b hbs hbpd hfd
        have hc0 := GitGP.countP_eq_zero_of_find?_none hfd
        have hnew : GitGP.gitCheckoutNewBranch s hash "_PD" =
            Except.ok (GitGP.RepoState.mk (("_PD", hash) :: s.branches)
              (some "_PD") hash) := by
          unfold GitGP.gitCheckoutNewBranch
          rw [hfd]
        have hck : GitGP.checkout main s hash = Except.ok
            (GitGP.RepoState.mk (("_PD", hash) :: s.branches)
              (some "_PD") hash,
             [GitGP.LogEntry.mk GitGP.LogLevel.debug "Branch _PD not found"]) := by
          simp only [GitGP.checkout, hdel, hnew]
        refine ⟨?_, ?_, ?_⟩
        · rw [hdel]
          exact congrArg some hc0
        · intro hpd
          exact absurd hpd hnotpd
        · rw [hck]
          exact congrArg some (hcons _ hc0)
      | some bd =>
        have hdel := GitGP.delete_tmp_branch_removes main s b hbs hbpd bd hfd
        have hnew : GitGP.gitCheckoutNewBranch
            (GitGP.RepoState.mk (s.branches.filter (fun x => !decide (x.1 = "_PD")))
              s.activeBranch s.headHash) hash "_PD" =
            Except.ok (GitGP.RepoState.mk
              (("_PD", hash) :: s.branches.filter (fun x => !decide (x.1 = "_PD")))
              (some "_PD") hash) := by
          unfold GitGP.gitCheckoutNewBranch
          rw [show (GitGP.RepoState.mk
              (s.branches.filter (fun x => !decide (x.1 = "_PD")))
              s.activeBranch s.headHash).branches.find? (fun x => x.1 = "_PD") =
              none from GitGP.find?_filter_self s.branches "_PD"]
        have hck : GitGP.checkout main s hash = Except.ok
            (GitGP.RepoState.mk
              (("_PD", hash) :: s.branches.filter (fun x => !decide (x.1 = "_PD")))
              (some "_PD") hash, []) := by
          simp only [GitGP.checkout, hdel, hnew]
        refine ⟨?_, ?_, ?_⟩
        · rw [hdel]
          exact congrArg some hcf
        · intro hpd
          exact absurd hpd hnotpd
        · rw [hck]
          exact congrArg some (hcons _ hcf)

/-- Witness for C2: on a concrete repository currently on `_PD` the
scratch branch is deleted and recreated at the target commit; from a
concrete detached HEAD the checkout raises `TypeError`. -/
theorem checkout_single_scratch_branch_witness :
    GitGP.checkout "main" ⟨[("main", "m0")], none, "d"⟩ "h1" =
      Except.error GitGP.PyExn.typeError ∧
    (GitGP.delete_tmp_branch "main"
        ⟨[("main", "m0"), ("_PD", "x")], some "_PD", "x"⟩).toOption.map
      (fun r => r.1.branches.countP (fun x => x.1 = "_PD")) = some 0 ∧
    (GitGP.checkout "main" ⟨[("main", "m0"), ("_PD", "x")], some "_PD", "x"⟩
        "h1").toOption.map
      (fun r => (r.1.branches.countP (fun x => x.1 = "_PD"),
                 r.1.activeBranch, r.1.headHash)) = some (1, some "_PD", "h1") :=
  ⟨(checkout_single_scratch_branch "main" "h1" ⟨[("main", "m0")], none, "d"⟩
      (by decide) (by decide) (fun h => Option.noConfusion h)).1 rfl,
   ((checkout_single_scratch_branch "main" "h1"
      ⟨[("main", "m0"), ("_PD", "x")], some "_PD", "x"⟩
      (by decide) (by decide) (fun _ => by decide)).2 (by decide)).1,
   ((checkout_single_scratch_branch "main" "h1"
      ⟨[("main", "m0"), ("_PD", "x")], some "_PD", "x"⟩
      (by decide) (by decide) (fun _ => by decide)).2 (by decide)).2.2⟩

/-- C3: `reset` is idempotent: whatever state the first call produced,
the working tree is then on the configured main branch with no scratch
branch `_PD`, and a second call returns exactly the same state, the
absent scratch branch being caught and logged at debug level. -/
theorem reset_idempotent (main : String) (s s1 : GitGP.RepoState)
    (log1 : List GitGP.LogEntry)
    (hne : main ≠ "_PD")
    (h1 : GitGP.reset main s = Except.ok (s1, log1)) :
    s1.activeBranch = some main ∧
    s1.branches.countP (fun b => b.1 = "_PD") = 0 ∧
    GitGP.reset main s1 = Except.ok (s1,
      [GitGP.LogEntry.mk GitGP.LogLevel.debug "Branch _PD not found"]) := by
  obtain ⟨bm, hfm⟩ : ∃ bm, s.branches.find? (fun b => b.1 = main) = some bm := by
    cases hfm0 : s.branches.find? (fun b => b.1 = main) with
    | none =>
      rw [show GitGP.reset main s = Except.error GitGP.PyExn.gitCommandError from by
        simp [GitGP.reset, GitGP.gitCheckoutBranch, hfm0]] at h1
      exact absurd h1 (by simp)
    | some bm => exact ⟨bm, rfl⟩
  have hco : GitGP.gitCheckoutBranch s main =
      Except.ok (GitGP.RepoState.mk s.branches (some main) bm.2) := by
    simp [GitGP.gitCheckoutBranch, hfm]
  cases hfd : s.branches.find? (fun x => x.1 = "_PD") with
  | none =>
    have hdel := GitGP.delete_tmp_branch_absent main
        (GitGP.RepoState.mk s.branches (some main) bm.2) main rfl hne hfd
    have hrs : GitGP.reset main s = Except.ok
        (GitGP.RepoState.mk s.branches (some main) bm.2,
         [GitGP.LogEntry.mk GitGP.LogLevel.debug "Branch _PD not found"]) := by
      simp only [GitGP.reset, hco, hdel]
    rw [hrs] at h1
    simp only [Except.ok.injEq, Prod.mk.injEq] at h1
    obtain ⟨hs1, hl1⟩ := h1
    subst hs1
    refine ⟨rfl, GitGP.countP_eq_zero_of_find?_none hfd, ?_⟩
    have hco2 : GitGP.gitCheckoutBranch
        (GitGP.RepoState.mk s.branches (some main) bm.2) main =
        Except.ok (GitGP.RepoState.mk s.branches (some main) bm.2) := by
      unfold GitGP.gitCheckoutBranch
      dsimp only
      rw [hfm]
    simp only [GitGP.reset, hco2, hdel]
  | some bd =>
    have hdel := GitGP.delete_tmp_branch_removes main
        (GitGP.RepoState.mk s.branches (some main) bm.2) main rfl hne bd hfd
    have hrs : GitGP.reset main s = Except.ok
        (GitGP.RepoState.mk (s.branches.filter (fun x => !decide (x.1 = "_PD")))
          (some main) bm.2, []) := by
      simp only [GitGP.reset, hco, hdel]
    rw [hrs] at h1
    simp only [Except.ok.injEq, Prod.mk.injEq] at h1
    obtain ⟨hs1, hl1⟩ := h1
    subst hs1
    refine ⟨rfl, GitGP.countP_eq_zero_of_find?_none
      (GitGP.find?_filter_self s.branches "_PD"), ?_⟩
    have hfm2 : (s.branches.filter (fun x => !decide (x.1 = "_PD"))).find?
        (fun x => x.1 = main) = some bm := by
      rw [GitGP.find?_other_filter s.branches main hne, hfm]
    have hco2 : GitGP.gitCheckoutBranch
        (GitGP.RepoState.mk (s.branches.filter (fun x => !decide (x.1 = "_PD")))
          (some main) bm.2) main =
        Except.ok (GitGP.RepoState.mk
          (s.branches.filter (fun x => !decide (x.1 = "_PD"))) (some main) bm.2) := by
      unfold GitGP.gitCheckoutBranch
      dsimp only
      rw [hfm2]
    have hdel2 := GitGP.delete_tmp_branch_absent main
        (GitGP.RepoState.mk (s.branches.filter (fun x => !decide (x.1 = "_PD")))
          (some main) bm.2) main rfl hne
        (GitGP.find?_filter_self s.branches "_PD")
    simp only [GitGP.reset, hco2, hdel2]

/-- Witness for C3 on a one-branch repository: both calls land on
`main`, the second logging the caught absent-branch error. -/
theorem reset_idempotent_witness :
    (⟨[("main", "m0")], some "main", "m0"⟩ : GitGP.RepoState).activeBranch =
      some "main" ∧
    (⟨[("main", "m0")], some "main", "m0"⟩ : GitGP.RepoState).branches.countP
      (fun b => b.1 = "_PD") = 0 ∧
    GitGP.reset "main" ⟨[("main", "m0")], some "main", "m0"⟩ =
      Except.ok (⟨[("main", "m0")], some "main", "m0"⟩,
        [GitGP.LogEntry.mk GitGP.LogLevel.debug "Branch _PD not found"]) :=
  reset_idempotent "main" ⟨[("main", "m0")], some "main", "m0"⟩
    ⟨[("main", "m0")], some "main", "m0"⟩
    [GitGP.LogEntry.mk GitGP.LogLevel.debug "Branch _PD not found"]
    (by decide) rfl

/-- C4: `get_commit_from_tag` emits a debug log entry and re-raises the
not-found condition when the tag name is absent or its target commit
does not resolve; when the tag resolves it returns a `Commit` whose hash
is the tagged commit's hash. -/
theorem get_commit_from_tag_spec (conf : GitGP.Conf) (tags : List GitGP.Tag)
    (tag : String) :
    (tags.find? (fun t => t.name = tag) = none →
      GitGP.get_commit_from_tag conf tags tag =
        (Except.error GitGP.TagError.indexError,
         [GitGP.LogEntry.mk GitGP.LogLevel.debug ("Tag " ++ tag ++ " not found")])) ∧
    (∀ t, tags.find? (fun t => t.name = tag) = some t → t.commit = none →
      GitGP.get_commit_from_tag conf tags tag =
        (Except.error GitGP.TagError.attributeError,
         [GitGP.LogEntry.mk GitGP.LogLevel.debug ("Tag " ++ tag ++ " not found")])) ∧
    (∀ t c, tags.find? (fun t => t.name = tag) = some t → t.commit = some c →
      GitGP.get_commit_from_tag conf tags tag =
        (Except.ok (GitGP.Commit.mk (GitGP.GitCommit.mk c.hexsha) conf), []) ∧
      ∀ cm : GitGP.Commit,
        GitGP.get_commit_from_tag conf tags tag = (Except.ok cm, []) →
        cm.gitCommit.hexsha = c.hexsha) := by
  refine ⟨?_, ?_, ?_⟩
  · intro h
    simp [GitGP.get_commit_from_tag, h]
  · intro t ht hc
    simp [GitGP.get_commit_from_tag, ht, hc]
  · intro t c ht hc
    have heq : GitGP.get_commit_from_tag conf tags tag =
        (Except.ok (GitGP.Commit.mk (GitGP.GitCommit.mk c.hexsha) conf), []) := by
      simp [GitGP.get_commit_from_tag, ht, hc, GitGP.get_commit, GitGP.repoCommit]
    refine ⟨heq, ?_⟩
    intro cm hcm
    rw [heq] at hcm
    have := congrArg Prod.fst hcm
    simp only [Except.ok.injEq] at this
    rw [← this]

/-- Witness for C4: a repository with tag `v1.0` at commit `abc123`:
the tag resolves to that hash and a missing tag name fails. -/
theorem get_commit_from_tag_spec_witness :
    GitGP.get_commit_from_tag ⟨some "main"⟩
        [GitGP.Tag.mk "v1.0" (some (GitGP.GitCommit.mk "abc123"))] "v1.0" =
      (Except.ok (GitGP.Commit.mk (GitGP.GitCommit.mk "abc123") ⟨some "main"⟩), []) ∧
    GitGP.get_commit_from_tag ⟨some "main"⟩
        [GitGP.Tag.mk "v1.0" (some (GitGP.GitCommit.mk "abc123"))] "nonexistent" =
      (Except.error GitGP.TagError.indexError,
       [GitGP.LogEntry.mk GitGP.LogLevel.debug
          ("Tag " ++ "nonexistent" ++ " not found")]) :=
  ⟨((get_commit_from_tag_spec ⟨some "main"⟩
        [GitGP.Tag.mk "v1.0" (some (GitGP.GitCommit.mk "abc123"))] "v1.0").2.2
      (GitGP.Tag.mk "v1.0" (some (GitGP.GitCommit.mk "abc123")))
      (GitGP.GitCommit.mk "abc123") (by decide) (by decide)).1,
   (get_commit_from_tag_spec ⟨some "main"⟩
        [GitGP.Tag.mk "v1.0" (some (GitGP.GitCommit.mk "abc123"))] "nonexistent").1
      (by decide)⟩

/-- C6: on first open with no configured main branch, discovery records
the checked-out branch name in the configuration; a detached HEAD is
recorded as the empty string with an informational log instead of a
failure; a configured main branch suppresses discovery and is kept
unchanged. -/
theorem open_repository_discovery (st : GitGP.AdapterState) (active : Option String) :
    (st.conf.main_branch = none → ∀ name, active = some name →
      (GitGP.open_repository st active).1.conf.main_branch = some name ∧
      (GitGP.open_repository st active).2.2 = true) ∧
    (st.conf.main_branch = none → active = none →
      (GitGP.open_repository st active).1.conf.main_branch = some "" ∧
      (GitGP.open_repository st active).2.1 =
        [GitGP.LogEntry.mk GitGP.LogLevel.info
          "HEAD is a detached symbolic reference, setting main branch to empty string"] ∧
      (GitGP.open_repository st active).2.2 = true) ∧
    (∀ b, st.conf.main_branch = some b →
      (GitGP.open_repository st active).2.2 = false ∧
      (GitGP.open_repository st active).1.conf = st.conf ∧
      (GitGP.open_repository st active).2.1 = []) := by
  refine ⟨?_, ?_, ?_⟩
  · rintro h name rfl
    simp [GitGP.open_repository, GitGP.discover_main_branch, h]
  · rintro h rfl
    simp [GitGP.open_repository, GitGP.discover_main_branch, h]
  · intro b h
    simp [GitGP.open_repository, h]

/-- Witness for C6: discovery on branch `main`, in detached state, and
suppressed when the configuration already holds `dev`. -/
theorem open_repository_discovery_witness :
    ((GitGP.open_repository ⟨false, ⟨none⟩, false⟩ (some "main")).1.conf.main_branch =
      some "main" ∧
     (GitGP.open_repository ⟨false, ⟨none⟩, false⟩ (some "main")).2.2 = true) ∧
    ((GitGP.open_repository ⟨false, ⟨none⟩, false⟩ none).1.conf.main_branch =
      some "") ∧
    ((GitGP.open_repository ⟨false, ⟨some "dev"⟩, false⟩ none).2.2 = false ∧
     (GitGP.open_repository ⟨false, ⟨some "dev"⟩, false⟩ none).1.conf =
       GitGP.Conf.mk (some "dev")) :=
  ⟨(open_repository_discovery ⟨false, ⟨none⟩, false⟩ (some "main")).1 rfl "main" rfl,
   ((open_repository_discovery ⟨false, ⟨none⟩, false⟩ none).2.1 rfl rfl).1,
   ⟨((open_repository_discovery ⟨false, ⟨some "dev"⟩, false⟩ none).2.2 "dev" rfl).1,
    ((open_repository_discovery ⟨false, ⟨some "dev"⟩, false⟩ none).2.2 "dev" rfl).2.1⟩⟩

/-- C9 counterexample: on the first call — repository handle not yet
opened and no configured main branch — `get_head` does mutate the
adapter: it opens the handle, writes the repository blame option and
branch discovery writes the configuration. -/
theorem get_head_first_call_mutates :
    (GitGP.get_head ⟨false, ⟨none⟩, false⟩ (some "main")
        (GitGP.GitCommit.mk "abc")).2.1 ≠
      (⟨false, ⟨none⟩, false⟩ : GitGP.AdapterState) := by
  decide

/-- C9 (amended): `get_head` returns the commit at HEAD wrapped with the
shared configuration, and whenever the repository handle is already open
it leaves the adapter state — hence the configuration and the
repository — unchanged and emits no log. -/
theorem get_head_no_side_effects (st : GitGP.AdapterState) (active : Option String)
    (head : GitGP.GitCommit) (h : st.repoOpened = true) :
    GitGP.get_head st active head = (GitGP.Commit.mk head st.conf, st, []) := by
  simp [GitGP.get_head, GitGP.repo_property, h]

/-- Witness for the amended C9 on an opened adapter. -/
theorem get_head_no_side_effects_witness :
    GitGP.get_head ⟨true, ⟨some "main"⟩, true⟩ (some "main")
        (GitGP.GitCommit.mk "abc") =
      (GitGP.Commit.mk (GitGP.GitCommit.mk "abc") ⟨some "main"⟩,
       ⟨true, ⟨some "main"⟩, true⟩, []) :=
  get_head_no_side_effects ⟨true, ⟨some "main"⟩, true⟩ (some "main")
    (GitGP.GitCommit.mk "abc") rfl

/-- A parent revision string `h ++ "^"` is never the literal flag
`--ignore-revs-file`: it ends in a caret, the flag does not. -/
theorem GitGP.append_caret_ne_flag (h : String) :
    ¬ (h ++ "^") = "--ignore-revs-file" := by
  intro he
  have hd : (h ++ "^").data = "--ignore-revs-file".data := congrArg String.data he
  rw [String.data_append] at hd
  have h2 := congrArg List.getLast? hd
  rw [show ("^" : String).data = ['^'] from rfl, List.getLast?_concat] at h2
  rw [show ("--ignore-revs-file".data).getLast? = some 'e' from rfl] at h2
  exact absurd h2 (by decide)

/-- C8: `_get_blame` passes `--ignore-revs-file` to the toolkit iff an
ignore-revisions file is supplied and the toolkit version is at least
(2, 23); on an older version the filter is skipped with an informational
log, while the whitespace-insensitive blame against the parent of the
commit still runs and its raw output is split on line boundaries. -/
theorem get_blame_version_gate (versionInfo : List Nat)
    (blame : List String → String → String) (commit_hash path : String)
    (ignore : Option String) :
    ("-w" ∈ (GitGP.get_blame versionInfo blame commit_hash path ignore).2.1 ∧
     (commit_hash ++ "^") ∈
       (GitGP.get_blame versionInfo blame commit_hash path ignore).2.1 ∧
     (GitGP.get_blame versionInfo blame commit_hash path ignore).1 =
       GitGP.pySplit
         (blame (GitGP.get_blame versionInfo blame commit_hash path ignore).2.1 path)
         '\n') ∧
    ("--ignore-revs-file" ∈
        (GitGP.get_blame versionInfo blame commit_hash path ignore).2.1 ↔
      (∃ p, ignore = some p) ∧ GitGP.pyTupleGE versionInfo [2, 23] = true) ∧
    (∀ p, ignore = some p → GitGP.pyTupleGE versionInfo [2, 23] = false →
      (GitGP.get_blame versionInfo blame commit_hash path ignore).2.1 =
        ["-w", commit_hash ++ "^"] ∧
      (GitGP.get_blame versionInfo blame commit_hash path ignore).2.2 =
        [GitGP.LogEntry.mk GitGP.LogLevel.info
          "'--ignore-revs-file' is only available from git v2.23"]) := by
  cases ignore with
  | none =>
    have hargs : (GitGP.get_blame versionInfo blame commit_hash path none).2.1 =
        ["-w", commit_hash ++ "^"] := by simp [GitGP.get_blame]
    refine ⟨⟨?_, ?_, rfl⟩, ?_, ?_⟩
    · rw [hargs]; simp
    · rw [hargs]; simp
    · rw [hargs]
      constructor
      · intro hmem
        simp only [List.mem_cons, List.not_mem_nil, or_false] at hmem
        rcases hmem with h | h
        · exact absurd h (by decide)
        · exact absurd h.symm (GitGP.append_caret_ne_flag commit_hash)
      · rintro ⟨⟨q, hq⟩, -⟩
        exact absurd hq (by simp)
    · intro p hp
      exact absurd hp (by simp)
  | some p =>
    by_cases hv : GitGP.pyTupleGE versionInfo [2, 23] = true
    · have hargs : (GitGP.get_blame versionInfo blame commit_hash path (some p)).2.1 =
          ["-w", commit_hash ++ "^", "--ignore-revs-file", p] := by
        simp [GitGP.get_blame, hv]
      refine ⟨⟨?_, ?_, rfl⟩, ?_, ?_⟩
      · rw [hargs]; simp
      · rw [hargs]; simp
      · rw [hargs]
        constructor
        · intro _
          exact ⟨⟨p, rfl⟩, hv⟩
        · intro _
          simp
      · intro q _ hvf
        rw [hv] at hvf
        exact absurd hvf (by simp)
    · have hvf : GitGP.pyTupleGE versionInfo [2, 23] = false :=
        Bool.not_eq_true _ ▸ Bool.eq_false_iff.mpr hv
      have hargs : (GitGP.get_blame versionInfo blame commit_hash path (some p)).2.1 =
          ["-w", commit_hash ++ "^"] := by
        simp [GitGP.get_blame, hvf]
      have hlogs : (GitGP.get_blame versionInfo blame commit_hash path (some p)).2.2 =
          [GitGP.LogEntry.mk GitGP.LogLevel.info
            "'--ignore-revs-file' is only available from git v2.23"] := by
        simp [GitGP.get_blame, hvf]
      refine ⟨⟨?_, ?_, rfl⟩, ?_, ?_⟩
      · rw [hargs]; simp
      · rw [hargs]; simp
      · rw [hargs]
        constructor
        · intro hmem
          simp only [List.mem_cons, List.not_mem_nil, or_false] at hmem
          rcases hmem with h | h
          · exact absurd h (by decide)
          · exact absurd h.symm (GitGP.append_caret_ne_flag commit_hash)
        · rintro ⟨-, hge⟩
          rw [hge] at hvf
          exact absurd hvf (by simp)
      · intro q _ _
        exact ⟨hargs, hlogs⟩

/-- Witness for C8: toolkit version (2, 22) with an ignore file — the
flag is skipped and the info note logged. -/
theorem get_blame_version_gate_witness :
    (GitGP.get_blame [2, 22] (fun _ _ => "l1") "c0" "f.py" (some "ign.txt")).2.1 =
      ["-w", "c0" ++ "^"] ∧
    (GitGP.get_blame [2, 22] (fun _ _ => "l1") "c0" "f.py" (some "ign.txt")).2.2 =
      [GitGP.LogEntry.mk GitGP.LogLevel.info
        "'--ignore-revs-file' is only available from git v2.23"] :=
  (get_blame_version_gate [2, 22] (fun _ _ => "l1") "c0" "f.py"
      (some "ign.txt")).2.2 "ign.txt" rfl (by decide)
